import Mathlib

/-!
Verification development for the mapport repository (three TypeScript
source files: the `MapPortSDK` panorama controller, the
`MapportExtension` pin orchestrator, and a uuid helper).

The numeric state of the controller is exact rational arithmetic in the
source (sensitivities 0.1, 0.2, 0.05 and the clamps are exact decimal
constants), so it is embedded over `ℚ`.  The only irrational values the
program ever stores are the radian conversions `phi` and `theta`; every
such value is `d * π / 180` for a rational degree count `d`, and since
`d ↦ d * π / 180` is injective, a radian value is represented exactly by
its rational coefficient (`Radians`).
-/

namespace Mapport

/-- A radian value of the form `coeff * π / 180`.  `THREE.MathUtils.degToRad`
only ever produces such values from the rational degree fields of the SDK
state, and equality of two such values is equality of the coefficients. -/
structure Radians where
  coeff : ℚ
deriving DecidableEq, Repr

/-- `THREE.MathUtils.degToRad(d) = d * (π / 180)`, represented exactly. -/
def degToRad (d : ℚ) : Radians := ⟨d⟩

/-- The camera object; the controller only reads and writes its `fov`. -/
structure Camera where
  fov : ℚ
deriving DecidableEq, Repr

/-- `THREE.MathUtils.clamp(value, min, max) = Math.max(min, Math.min(max, value))`. -/
def clampQ (lo hi x : ℚ) : ℚ := max lo (min hi x)

/-- The mutable fields of `MapPortSDK` (src/unnamed/part_000).  The scene
graph of the external engine is modelled as the list of meshes currently
parented to the scene; `THREE.Object3D` keeps each object under at most one
parent, so the children list behaves as a set under add/remove. -/
structure SdkState where
  camera : Option Camera
  scene : Option (List Nat)
  renderer : Bool
  isUserInteracting : Bool
  mouseDownMouseX : ℚ
  mouseDownMouseY : ℚ
  lon : ℚ
  targetLon : ℚ
  mouseDownLon : ℚ
  lat : ℚ
  targetLat : ℚ
  mouseDownLat : ℚ
  phi : Radians
  theta : Radians
deriving DecidableEq, Repr

/-- The fields of a `PointerEvent` read by the handlers. -/
structure PointerEvent where
  isPrimary : Bool
  clientX : ℚ
  clientY : ℚ
deriving DecidableEq, Repr

/-- `MapPortSDK.addScene`: `this.scene?.add(mesh)`.  `THREE.Object3D.add`
reparents: if the mesh is already a child it is removed first, then pushed
onto the end of the children list; with no scene initialized it is a no-op. -/
def addScene (s : SdkState) (m : Nat) : SdkState :=
  match s.scene with
  | none => s
  | some l => { s with scene := some (l.filter (fun x => x != m) ++ [m]) }

/-- `MapPortSDK.removeMesh`: `this.scene?.remove(mesh)` — removes the mesh
from the children list if present, no-op otherwise (also when no scene). -/
def removeMesh (s : SdkState) (m : Nat) : SdkState :=
  match s.scene with
  | none => s
  | some l => { s with scene := some (l.filter (fun x => x != m)) }

/-- `MapPortSDK.updateScene(mesh, mesh2)`: `this.scene?.remove(mesh)` then
`this.scene?.add(mesh2)` — remove first, add second, two separate calls. -/
def updateScene (s : SdkState) (m m2 : Nat) : SdkState :=
  addScene (removeMesh s m) m2

/-- Whether the scene currently contains a mesh. -/
def sceneContains (s : SdkState) (m : Nat) : Bool :=
  match s.scene with
  | none => false
  | some l => decide (m ∈ l)

/-- `MapPortSDK.onMouseDown`: ignores non-primary pointers, otherwise starts
a drag session recording the screen point and the current `lon`/`lat`. -/
def onMouseDown (s : SdkState) (e : PointerEvent) : SdkState :=
  if e.isPrimary = false then s
  else
    { s with isUserInteracting := true,
             mouseDownMouseX := e.clientX, mouseDownMouseY := e.clientY,
             mouseDownLon := s.lon, mouseDownLat := s.lat }

/-- `MapPortSDK.onMouseMove`: ignores non-primary pointers and moves outside
a drag; otherwise retargets from the drag anchor with sensitivity 0.2. -/
def onMouseMove (s : SdkState) (e : PointerEvent) : SdkState :=
  if e.isPrimary = false ∨ s.isUserInteracting = false then s
  else
    { s with targetLon := (s.mouseDownMouseX - e.clientX) * 0.2 + s.mouseDownLon,
             targetLat := (e.clientY - s.mouseDownMouseY) * 0.2 + s.mouseDownLat }

/-- `MapPortSDK.onMouseUp`: ignores non-primary pointers, otherwise sets
`isUserInteracting = false` (this is the entire handler body). -/
def onMouseUp (s : SdkState) (e : PointerEvent) : SdkState :=
  if e.isPrimary = false then s
  else { s with isUserInteracting := false }

/-- `MapPortSDK.onDocumentMouseWheel`: with no camera, a no-op; otherwise
`fov = clamp(fov + deltaY * 0.05, 10, 75)`. -/
def onDocumentMouseWheel (s : SdkState) (deltaY : ℚ) : SdkState :=
  match s.camera with
  | none => s
  | some c => { s with camera := some ⟨clampQ 10 75 (c.fov + deltaY * 0.05)⟩ }

/-- `MapPortSDK.animate`: early return unless camera, scene and renderer are
all initialized; otherwise damp `lon`/`lat` toward their targets with factor
0.1, clamp `lat` to `[-85, 85]` via `Math.max(-85, Math.min(85, lat))`, and
recompute `phi = degToRad(90 - lat)`, `theta = degToRad(lon)`. -/
def animate (s : SdkState) : SdkState :=
  if s.camera.isNone || s.scene.isNone || !s.renderer then s
  else
    let lon := s.lon + (s.targetLon - s.lon) * 0.1
    let lat0 := s.lat + (s.targetLat - s.lat) * 0.1
    let lat := max (-85) (min 85 lat0)
    { s with lon := lon, lat := lat,
             phi := degToRad (90 - lat), theta := degToRad lon }

/-! ### The pin orchestrator (`MapportExtension`, src/src/mapport-extension.ts) -/

/-- A 3D vector as passed through to the platform. -/
structure Vec3 where
  x : ℚ
  y : ℚ
  z : ℚ
deriving DecidableEq, Repr

/-- The fields of a `Pinport.Pin` read by `addPins`.  `color` and `icon` are
nullable in the data, so they are options here. -/
structure Pin where
  id : String
  html : String
  position : Vec3
  offset : Vec3
  opacity : ℚ
  enableLine : Bool
  color : Option String
  icon : Option String
deriving DecidableEq, Repr

/-- The argument object of one `mapport.Tag.add` call. -/
structure TagAddRequest where
  id : String
  anchorPosition : Vec3
  stemVector : Vec3
  attachments : List Nat
  opacity : ℚ
  stemVisible : Bool
  color : String
  iconId : Option String
deriving DecidableEq, Repr

/-- JS `a || b` for a nullable string `a`: the default wins when `a` is
null/undefined or the empty string (both falsy). -/
def jsOrStr (v : Option String) (dflt : String) : String :=
  match v with
  | none => dflt
  | some s => if s == "" then dflt else s

/-- JS `s?.length ? s : undefined`: undefined when the string is missing or
empty. -/
def jsNonEmpty (v : Option String) : Option String :=
  match v with
  | none => none
  | some s => if s == "" then none else some s

/-- The `Tag.add` payload built from a pin and its attachment handle:
`color: pin.color || "#000"`, `iconId: pin.icon?.length ? pin.icon : undefined`. -/
def mkTagRequest (p : Pin) (attach : Nat) : TagAddRequest :=
  { id := p.id
    anchorPosition := p.position
    stemVector := p.offset
    attachments := [attach]
    opacity := p.opacity
    stemVisible := p.enableLine
    color := jsOrStr p.color "#000"
    iconId := jsNonEmpty p.icon }

/-- JS truthiness of `model?.length` for a nullable string: truthy exactly
when the string exists and is non-empty. -/
def jsTruthyStr (v : Option String) : Bool :=
  match v with
  | none => false
  | some s => !(s == "")

/-- JS `!arr` for an array value: every array object, including `[]`, is
truthy, so the negation is always `false`.  (The `pins` parameter of
`addPins` has already received its default `[]` when this test runs.) -/
def jsNotArray (_ : List Pin) : Bool := false

/-- `Promise.all` over a list of already-determined outcomes: the first
error (in batch order) rejects the whole batch, otherwise all values. -/
def mapExcept (f : α → Except String β) : List α → Except String (List β)
  | [] => Except.ok []
  | a :: l =>
    match f a with
    | Except.error e => Except.error e
    | Except.ok b => (mapExcept f l).map (fun bs => b :: bs)

/-- The dedup loop of `addPins`: walking the attachment batch in order, a
pin whose `id` is already in `existingIds` is skipped, otherwise its id is
recorded and a `Tag.add` request is issued. -/
def dedupGo : List (Pin × Nat) → List String → List TagAddRequest
  | [], _ => []
  | (p, a) :: rest, seen =>
    if p.id ∈ seen then dedupGo rest seen
    else mkTagRequest p a :: dedupGo rest (p.id :: seen)

/-- The observable outcome of one `addPins` call: the final contents of the
caller's `pins` array (which the code mutates via `pins.push(...)`), the
`Tag.add` requests issued to the platform, and the settled promise. -/
structure AddPinsResult where
  callerPins : List Pin
  issued : List TagAddRequest
  outcome : Except String Unit
deriving Repr

/-- `MapportExtension.addPins`, parameterized by the three external calls it
makes: `getPins` (content store fetch), `Tag.registerSandbox` (attachment
rendering, yielding a handle), and `Tag.add` (overlay registration).
`pinsArg = none` is an omitted argument, which the TS default `pins = []`
replaces with the empty array — so the `!pins && !model` guard tests an
array value and can never fire.  A truthy non-empty `model` triggers the
fetch, whose result is pushed onto the caller's array.  Then attachments are
fetched for every pin of the working list (`Promise.all` fan-out, rejecting
the whole call on any failure), and the dedup loop issues one registration
per first-seen id; registration failures reject the whole call after every
registration of the batch has been issued. -/
def addPins (getPinsO : String → Except String (List Pin))
    (sandboxO : String → Except String Nat)
    (tagAddO : TagAddRequest → Except String Unit)
    (pinsArg : Option (List Pin)) (model : Option String) : AddPinsResult :=
  let pins := pinsArg.getD []
  if jsNotArray pins && !jsTruthyStr model then
    { callerPins := pins, issued := [],
      outcome := Except.error
        "To add pins, provide either a pins array or a model in the setup configuration." }
  else
    let fetchRes : Except String (List Pin) :=
      if jsTruthyStr model then getPinsO (model.getD "") else Except.ok []
    match fetchRes with
    | Except.error e => { callerPins := pins, issued := [], outcome := Except.error e }
    | Except.ok fetched =>
      let working := pins ++ fetched
      match mapExcept (fun p => sandboxO p.html) working with
      | Except.error e => { callerPins := working, issued := [], outcome := Except.error e }
      | Except.ok attaches =>
        let issued := dedupGo (working.zip attaches) []
        { callerPins := working, issued := issued,
          outcome := (mapExcept tagAddO issued).map (fun _ => ()) }

/-- `addPins` where the caller's pins array is a heap cell: the call reads
the array at `r`, runs the pipeline, and writes the mutated contents back to
the same cell (the `pins.push(...)` mutation is in place; no other cell is
touched). -/
def addPinsRef (getPinsO : String → Except String (List Pin))
    (sandboxO : String → Except String Nat)
    (tagAddO : TagAddRequest → Except String Unit)
    (heap : Nat → List Pin) (r : Nat) (model : Option String) :
    (Nat → List Pin) × AddPinsResult :=
  let out := addPins getPinsO sandboxO tagAddO (some (heap r)) model
  (fun x => if x = r then out.callerPins else heap x, out)

/-! ### `getPosition` (the closure returned by `setupSdk`) -/

/-- The value `getPosition` resolves with: a position plus the timestamp at
which it was computed. -/
structure IntersectionTimed where
  x : ℚ
  y : ℚ
  z : ℚ
  time : ℚ
deriving DecidableEq, Repr

/-- One settling call made by a promise executor: `resolve` (possibly with a
null value, as `resolve(intersectionCache)` does when the cache is null) or
`reject` with a message. -/
inductive Settle (α : Type) where
  | resolve (v : Option α)
  | reject (msg : String)
deriving DecidableEq

/-- How a promise settles. -/
inductive PromiseOutcome (α : Type) where
  | resolved (v : Option α)
  | rejected (msg : String)
deriving DecidableEq

/-- A promise settles with the first `resolve`/`reject` call its executor
makes; later calls are ignored. -/
def settleFirst : List (Settle α) → PromiseOutcome α
  | [] => PromiseOutcome.rejected "unsettled"
  | Settle.resolve v :: _ => PromiseOutcome.resolved v
  | Settle.reject m :: _ => PromiseOutcome.rejected m

/-- `getPosition` from `setupSdk`: the executor rejects when either cache is
null (JS falsy for the object caches), and then unconditionally calls
`resolve(intersectionCache)` — which only takes effect when no reject
preceded it.  The two caches are the closure state of `setupSdk`. -/
def getPosition (intersectionCache : Option IntersectionTimed)
    (poseCache : Option Unit) : PromiseOutcome IntersectionTimed :=
  settleFirst
    ((if intersectionCache.isNone || poseCache.isNone
      then [Settle.reject "Can't get current position."] else [])
     ++ [Settle.resolve intersectionCache])

/-! ### Test fixtures -/

/-- A state as produced by `init`: camera at fov 75, an empty scene, a live
renderer, all numeric fields at their field initializers. -/
def baseState : SdkState :=
  { camera := some ⟨75⟩, scene := some [], renderer := true,
    isUserInteracting := false, mouseDownMouseX := 0, mouseDownMouseY := 0,
    lon := 0, targetLon := 0, mouseDownLon := 0,
    lat := 0, targetLat := 0, mouseDownLat := 0,
    phi := ⟨0⟩, theta := ⟨0⟩ }

/-- A state mid-drag, with a drag session recorded at screen (400, 300). -/
def draggingState : SdkState :=
  { baseState with isUserInteracting := true,
                   mouseDownMouseX := 400, mouseDownMouseY := 300,
                   mouseDownLon := 30, mouseDownLat := 10,
                   targetLon := 50, targetLat := 20 }

/-- A state whose scene holds the single mesh 7. -/
def sceneOne : SdkState := { baseState with scene := some [7] }

/-- A state whose scene holds the meshes 3 and 7. -/
def sceneTwo : SdkState := { baseState with scene := some [3, 7] }

/-- A state with an extreme damping target, far outside `[-85, 85]`. -/
def sInit : SdkState := { baseState with targetLat := 100000 }

/-! ### Frame-loop lemmas -/

theorem animate_camera (s : SdkState) : (animate s).camera = s.camera := by
  unfold animate; split <;> rfl

theorem animate_scene (s : SdkState) : (animate s).scene = s.scene := by
  unfold animate; split <;> rfl

theorem animate_renderer (s : SdkState) : (animate s).renderer = s.renderer := by
  unfold animate; split <;> rfl

theorem animate_step (s : SdkState) (hc : s.camera.isSome = true)
    (hs : s.scene.isSome = true) (hr : s.renderer = true) :
    -85 ≤ (animate s).lat ∧ (animate s).lat ≤ 85 ∧
    (animate s).phi = degToRad (90 - (animate s).lat) ∧
    (animate s).theta = degToRad ((animate s).lon) := by
  obtain ⟨c, hcam⟩ := Option.isSome_iff_exists.mp hc
  obtain ⟨l, hscn⟩ := Option.isSome_iff_exists.mp hs
  simp only [animate, hcam, hscn, hr, Option.isNone_some, Bool.not_true,
    Bool.or_self, Bool.or_false, Bool.false_or, Bool.false_eq_true, if_false]
  exact ⟨le_max_left _ _, max_le (by norm_num) (min_le_left _ _), trivial, trivial⟩

/-- C1: after every frame tick of the animation loop (in any sequence of
ticks after initialization, whatever `targetLat` is), the displayed `lat`
lies in `[-85, 85]`, and `phi = rad(90 - lat)` and `theta = rad(lon)` are
recomputed from the just-damped values on that same tick. -/
theorem c1_animate_lat_clamped (s : SdkState) (hc : s.camera.isSome = true)
    (hs : s.scene.isSome = true) (hr : s.renderer = true) (n : ℕ) :
    -85 ≤ (animate^[n + 1] s).lat ∧ (animate^[n + 1] s).lat ≤ 85 ∧
    (animate^[n + 1] s).phi = degToRad (90 - (animate^[n + 1] s).lat) ∧
    (animate^[n + 1] s).theta = degToRad ((animate^[n + 1] s).lon) := by
  have hiter : ∀ m : ℕ, (animate^[m] s).camera = s.camera ∧
      (animate^[m] s).scene = s.scene ∧ (animate^[m] s).renderer = s.renderer := by
    intro m
    induction m with
    | zero => exact ⟨rfl, rfl, rfl⟩
    | succ k ih =>
      rw [Function.iterate_succ_apply']
      exact ⟨(animate_camera _).trans ih.1, (animate_scene _).trans ih.2.1,
        (animate_renderer _).trans ih.2.2⟩
  rw [Function.iterate_succ_apply']
  exact animate_step _ (by rw [(hiter n).1]; exact hc)
    (by rw [(hiter n).2.1]; exact hs) (by rw [(hiter n).2.2]; exact hr)

/-- C1 witness: the invariant at a concrete post-init state whose
`targetLat` overshoots to 100000, after one tick. -/
theorem c1_witness :
    sInit.camera.isSome = true ∧ sInit.scene.isSome = true ∧
    sInit.renderer = true ∧
    (-85 ≤ (animate^[1] sInit).lat ∧ (animate^[1] sInit).lat ≤ 85 ∧
     (animate^[1] sInit).phi = degToRad (90 - (animate^[1] sInit).lat) ∧
     (animate^[1] sInit).theta = degToRad ((animate^[1] sInit).lon)) :=
  ⟨rfl, rfl, rfl, c1_animate_lat_clamped sInit rfl rfl rfl 0⟩

/-! ### Pointer-up (C4) -/

/-- C4 counterexample: on a primary pointer-up from a drag state whose
session records screen x 400 and lon 30, the handler leaves those recorded
drag-start values in place — the session data is NOT cleared, only the
`isUserInteracting` flag is set to false, refuting the claim that the
`DragSession` data itself is cleared. -/
theorem c4_counterexample :
    (onMouseUp draggingState ⟨true, 300, 300⟩).isUserInteracting = false ∧
    (onMouseUp draggingState ⟨true, 300, 300⟩).mouseDownMouseX = 400 ∧
    (onMouseUp draggingState ⟨true, 300, 300⟩).mouseDownLon = 30 :=
  ⟨rfl, rfl, rfl⟩

/-- C4 amended: on a primary pointer-up, the handler merely sets the
`isUserInteracting` flag to false; the recorded drag-start screen
coordinates and drag-start lon/lat are retained unchanged (they are never
read while not dragging), and `targetLon`/`targetLat` are left unchanged
(no snap-back). -/
theorem c4_onMouseUp_flag_only (s : SdkState) (e : PointerEvent)
    (hp : e.isPrimary = true) :
    (onMouseUp s e).isUserInteracting = false ∧
    (onMouseUp s e).mouseDownMouseX = s.mouseDownMouseX ∧
    (onMouseUp s e).mouseDownMouseY = s.mouseDownMouseY ∧
    (onMouseUp s e).mouseDownLon = s.mouseDownLon ∧
    (onMouseUp s e).mouseDownLat = s.mouseDownLat ∧
    (onMouseUp s e).targetLon = s.targetLon ∧
    (onMouseUp s e).targetLat = s.targetLat := by
  simp [onMouseUp, hp]

/-- C4 witness: the amended statement at a concrete drag state and primary
pointer-up event. -/
theorem c4_witness :
    (PointerEvent.mk true 120 80).isPrimary = true ∧
    ((onMouseUp draggingState ⟨true, 120, 80⟩).isUserInteracting = false ∧
     (onMouseUp draggingState ⟨true, 120, 80⟩).mouseDownMouseX =
       draggingState.mouseDownMouseX ∧
     (onMouseUp draggingState ⟨true, 120, 80⟩).mouseDownMouseY =
       draggingState.mouseDownMouseY ∧
     (onMouseUp draggingState ⟨true, 120, 80⟩).mouseDownLon =
       draggingState.mouseDownLon ∧
     (onMouseUp draggingState ⟨true, 120, 80⟩).mouseDownLat =
       draggingState.mouseDownLat ∧
     (onMouseUp draggingState ⟨true, 120, 80⟩).targetLon =
       draggingState.targetLon ∧
     (onMouseUp draggingState ⟨true, 120, 80⟩).targetLat =
       draggingState.targetLat) :=
  ⟨rfl, c4_onMouseUp_flag_only draggingState ⟨true, 120, 80⟩ rfl⟩

/-! ### Wheel zoom (C5) -/

/-- C5: with a camera present, a wheel event sets the new fov to
`clamp(fov + deltaY * 0.05, 10, 75)`; the clamped result is monotone in the
delta, pushing past either bound is idempotent, and from fov 75 a wheel
event with `deltaY = 500` leaves the fov at 75. -/
theorem c5_wheel_clamp (s : SdkState) (c : Camera) (hc : s.camera = some c)
    (d d1 d2 : ℚ) (h12 : d1 ≤ d2) :
    (onDocumentMouseWheel s d).camera = some ⟨clampQ 10 75 (c.fov + d * 0.05)⟩ ∧
    clampQ 10 75 (c.fov + d1 * 0.05) ≤ clampQ 10 75 (c.fov + d2 * 0.05) ∧
    (c.fov = 75 → 0 ≤ d → (onDocumentMouseWheel s d).camera = some ⟨75⟩) ∧
    (c.fov = 10 → d ≤ 0 → (onDocumentMouseWheel s d).camera = some ⟨10⟩) ∧
    (c.fov = 75 → (onDocumentMouseWheel s 500).camera = some ⟨75⟩) := by
  refine ⟨by simp [onDocumentMouseWheel, hc], ?_, ?_, ?_, ?_⟩
  · unfold clampQ
    have hm : d1 * 0.05 ≤ d2 * 0.05 :=
      mul_le_mul_of_nonneg_right h12 (by norm_num)
    exact max_le_max le_rfl (min_le_min le_rfl (by linarith))
  · intro h75 hd
    have hv : (0:ℚ) ≤ d * 0.05 := mul_nonneg hd (by norm_num)
    have hcl : clampQ 10 75 (c.fov + d * 0.05) = 75 := by
      rw [h75]
      unfold clampQ
      rw [min_eq_left (by linarith), max_eq_right (by norm_num)]
    simp [onDocumentMouseWheel, hc, hcl]
  · intro h10 hd
    have hv : d * 0.05 ≤ 0 := mul_nonpos_of_nonpos_of_nonneg hd (by norm_num)
    have hcl : clampQ 10 75 (c.fov + d * 0.05) = 10 := by
      rw [h10]
      unfold clampQ
      rw [min_eq_right (by linarith), max_eq_left (by linarith)]
    simp [onDocumentMouseWheel, hc, hcl]
  · intro h75
    have hcl : clampQ 10 75 (c.fov + 500 * 0.05) = 75 := by
      rw [h75]
      unfold clampQ
      norm_num
    simp [onDocumentMouseWheel, hc, hcl]

/-- C5 witness: the wheel contract at the post-init state (fov 75) with
delta 500, and deltas 1 ≤ 2 for monotonicity. -/
theorem c5_witness :
    baseState.camera = some ⟨75⟩ ∧ (1:ℚ) ≤ 2 ∧
    ((onDocumentMouseWheel baseState 500).camera =
       some ⟨clampQ 10 75 ((75:ℚ) + 500 * 0.05)⟩ ∧
     clampQ 10 75 ((75:ℚ) + 1 * 0.05) ≤ clampQ 10 75 ((75:ℚ) + 2 * 0.05) ∧
     ((75:ℚ) = 75 → (0:ℚ) ≤ 500 →
       (onDocumentMouseWheel baseState 500).camera = some ⟨75⟩) ∧
     ((75:ℚ) = 10 → (500:ℚ) ≤ 0 →
       (onDocumentMouseWheel baseState 500).camera = some ⟨10⟩) ∧
     ((75:ℚ) = 75 → (onDocumentMouseWheel baseState 500).camera = some ⟨75⟩)) :=
  ⟨rfl, by norm_num, c5_wheel_clamp baseState ⟨75⟩ rfl 500 1 2 (by norm_num)⟩

/-! ### Pointer move (C6) -/

/-- C6: during a drag (primary pointer, `isUserInteracting`), a pointer
move sets `targetLon = (dragStartX - currentX) * 0.2 + dragStartLon` and
`targetLat = (currentY - dragStartY) * 0.2 + dragStartLat`, exactly and
without clamping; in particular a move to x 300 from a drag started at
x 400 sets `targetLon` to `20 + dragStartLon`. -/
theorem c6_onMouseMove_targets (s : SdkState) (e : PointerEvent)
    (hp : e.isPrimary = true) (hd : s.isUserInteracting = true) :
    (onMouseMove s e).targetLon =
      (s.mouseDownMouseX - e.clientX) * 0.2 + s.mouseDownLon ∧
    (onMouseMove s e).targetLat =
      (e.clientY - s.mouseDownMouseY) * 0.2 + s.mouseDownLat ∧
    (s.mouseDownMouseX = 400 → e.clientX = 300 →
      (onMouseMove s e).targetLon = 20 + s.mouseDownLon) := by
  refine ⟨by simp [onMouseMove, hp, hd], by simp [onMouseMove, hp, hd], ?_⟩
  intro hx he
  simp [onMouseMove, hp, hd, hx, he]
  norm_num

/-- C6 witness: the drag from (400, 300) to (300, 300) of the spec
scenario, from a concrete drag state anchored at x 400. -/
theorem c6_witness :
    (PointerEvent.mk true 300 300).isPrimary = true ∧
    draggingState.isUserInteracting = true ∧
    ((onMouseMove draggingState ⟨true, 300, 300⟩).targetLon =
       (draggingState.mouseDownMouseX - 300) * 0.2 + draggingState.mouseDownLon ∧
     (onMouseMove draggingState ⟨true, 300, 300⟩).targetLat =
       (300 - draggingState.mouseDownMouseY) * 0.2 + draggingState.mouseDownLat ∧
     (draggingState.mouseDownMouseX = 400 →
       (PointerEvent.mk true 300 300).clientX = 300 →
       (onMouseMove draggingState ⟨true, 300, 300⟩).targetLon =
         20 + draggingState.mouseDownLon)) :=
  ⟨rfl, rfl, c6_onMouseMove_targets draggingState ⟨true, 300, 300⟩ rfl rfl⟩

/-! ### Scene replacement (C9) -/

/-- C9 counterexample: with a scene holding mesh 7, `updateScene 7 7`
(replace a mesh by itself — the claim quantifies over every pair of meshes)
leaves the scene containing 7, refuting "the scene does not contain A"
for the pair A = B = 7. -/
theorem c9_counterexample :
    sceneContains (updateScene sceneOne 7 7) 7 = true := rfl

/-- C9 amended: for distinct meshes A ≠ B and any initialized scene
contents, after `updateScene A B` the scene contains B and not A; the
operation is literally the `removeMesh` call followed by the `addScene`
call (not atomic), and A is already gone in the intermediate state. -/
theorem c9_updateScene_replaces (s : SdkState) (l : List Nat) (a b : Nat)
    (hs : s.scene = some l) (hab : a ≠ b) :
    sceneContains (updateScene s a b) b = true ∧
    sceneContains (updateScene s a b) a = false ∧
    updateScene s a b = addScene (removeMesh s a) b ∧
    sceneContains (removeMesh s a) a = false := by
  refine ⟨?_, ?_, rfl, ?_⟩
  · simp [updateScene, removeMesh, addScene, sceneContains, hs]
  · simp [updateScene, removeMesh, addScene, sceneContains, hs,
      List.mem_filter, List.mem_append, hab]
  · simp [removeMesh, sceneContains, hs, List.mem_filter]

/-- C9 witness: replacing mesh 3 by mesh 9 in a scene holding 3 and 7. -/
theorem c9_witness :
    sceneTwo.scene = some [3, 7] ∧ (3 : Nat) ≠ 9 ∧
    (sceneContains (updateScene sceneTwo 3 9) 9 = true ∧
     sceneContains (updateScene sceneTwo 3 9) 3 = false ∧
     updateScene sceneTwo 3 9 = addScene (removeMesh sceneTwo 3) 9 ∧
     sceneContains (removeMesh sceneTwo 3) 3 = false) :=
  ⟨rfl, by decide, c9_updateScene_replaces sceneTwo [3, 7] 3 9 rfl (by decide)⟩

/-! ### Pipeline lemmas -/

@[simp] theorem mkTagRequest_id (p : Pin) (a : Nat) :
    (mkTagRequest p a).id = p.id := rfl

theorem mapExcept_pure (g : α → β) (l : List α) :
    mapExcept (fun a => Except.ok (g a)) l = Except.ok (l.map g) := by
  induction l with
  | nil => rfl
  | cons a l ih => simp [mapExcept, ih, Except.map]

theorem mapExcept_error_of_mem (f : α → Except String β) (l : List α)
    (h : ∃ a ∈ l, (f a).isOk = false) :
    ∃ e, mapExcept f l = Except.error e := by
  induction l with
  | nil => simp at h
  | cons a l ih =>
    rcases h with ⟨x, hx, hfx⟩
    rcases List.mem_cons.mp hx with rfl | hx2
    · cases hfa : f x with
      | error e => exact ⟨e, by simp [mapExcept, hfa]⟩
      | ok b => rw [hfa] at hfx; simp [Except.isOk, Except.toBool] at hfx
    · cases hfa : f a with
      | error e => exact ⟨e, by simp [mapExcept, hfa]⟩
      | ok b =>
        obtain ⟨e, he⟩ := ih ⟨x, hx2, hfx⟩
        exact ⟨e, by simp [mapExcept, hfa, he, Except.map]⟩

theorem mapExcept_ok_of_forall (f : α → Except String β) (l : List α)
    (h : ∀ a ∈ l, (f a).isOk = true) :
    ∃ bs, mapExcept f l = Except.ok bs := by
  induction l with
  | nil => exact ⟨[], rfl⟩
  | cons a l ih =>
    cases hfa : f a with
    | error e =>
      have := h a (List.mem_cons_self a l)
      rw [hfa] at this
      simp [Except.isOk, Except.toBool] at this
    | ok b =>
      obtain ⟨bs, hbs⟩ := ih (fun x hx => h x (List.mem_cons_of_mem a hx))
      exact ⟨b :: bs, by simp [mapExcept, hfa, hbs, Except.map]⟩

theorem zip_map_self (f : α → β) (l : List α) :
    l.zip (l.map f) = l.map (fun a => (a, f a)) := by
  induction l with
  | nil => rfl
  | cons a l ih => simp [ih]

theorem dedupGo_countP_of_mem (l : List (Pin × Nat)) (seen : List String)
    (i : String) (hi : i ∈ seen) :
    (dedupGo l seen).countP (fun r => r.id == i) = 0 := by
  induction l generalizing seen with
  | nil => rfl
  | cons pa l ih =>
    obtain ⟨p, a⟩ := pa
    by_cases hp : p.id ∈ seen
    · rw [dedupGo, if_pos hp]
      exact ih seen hi
    · have hne : (p.id == i) = false :=
        beq_eq_false_iff_ne.mpr (fun h => hp (h ▸ hi))
      rw [dedupGo, if_neg hp, List.countP_cons]
      simp only [mkTagRequest_id, hne, if_false]
      exact ih _ (List.mem_cons_of_mem _ hi)

theorem dedupGo_countP_of_not_mem (l : List (Pin × Nat)) (seen : List String)
    (i : String) (hi : i ∉ seen)
    (hc : 1 ≤ l.countP (fun pa => pa.1.id == i)) :
    (dedupGo l seen).countP (fun r => r.id == i) = 1 := by
  induction l generalizing seen with
  | nil => simp at hc
  | cons pa l ih =>
    obtain ⟨p, a⟩ := pa
    by_cases hpi : p.id = i
    · have hp : p.id ∉ seen := fun h => hi (hpi ▸ h)
      rw [dedupGo, if_neg hp, List.countP_cons]
      simp only [mkTagRequest_id, hpi, beq_self_eq_true, if_true]
      rw [dedupGo_countP_of_mem l (i :: seen) i (List.mem_cons_self i seen)]
    · have hne : (p.id == i) = false := beq_eq_false_iff_ne.mpr hpi
      have hc2 : 1 ≤ l.countP (fun pa => pa.1.id == i) := by
        rw [List.countP_cons, hne] at hc
        simpa using hc
      have hi2 : i ∉ p.id :: seen := by
        intro h
        rcases List.mem_cons.mp h with h1 | h2
        · exact hpi h1.symm
        · exact hi h2
      by_cases hp : p.id ∈ seen
      · rw [dedupGo, if_pos hp]
        exact ih seen hi hc2
      · rw [dedupGo, if_neg hp, List.countP_cons]
        simp only [mkTagRequest_id, hne, if_false]
        exact ih (p.id :: seen) hi2 hc2

theorem dedupGo_find (l : List (Pin × Nat)) (seen : List String)
    (i : String) (hi : i ∉ seen) :
    (dedupGo l seen).find? (fun r => r.id == i) =
      (l.find? (fun pa => pa.1.id == i)).map (fun pa => mkTagRequest pa.1 pa.2) := by
  induction l generalizing seen with
  | nil => rfl
  | cons pa l ih =>
    obtain ⟨p, a⟩ := pa
    by_cases hpi : p.id = i
    · have hp : p.id ∉ seen := fun h => hi (hpi ▸ h)
      rw [dedupGo, if_neg hp]
      rw [List.find?_cons_of_pos _ (by simp [hpi]),
        List.find?_cons_of_pos _ (by simp [hpi])]
      rfl
    · have hne : (p.id == i) = false := beq_eq_false_iff_ne.mpr hpi
      have hi2 : i ∉ p.id :: seen := by
        intro h
        rcases List.mem_cons.mp h with h1 | h2
        · exact hpi h1.symm
        · exact hi h2
      rw [List.find?_cons_of_neg _ (by simp [hne])]
      by_cases hp : p.id ∈ seen
      · rw [dedupGo, if_pos hp]
        exact ih seen hi
      · rw [dedupGo, if_neg hp,
          List.find?_cons_of_neg _ (by simp [hne])]
        exact ih (p.id :: seen) hi2

theorem addPins_none_err (gp : String → Except String (List Pin))
    (sb : String → Except String Nat) (ta : TagAddRequest → Except String Unit)
    (pins : List Pin) (e : String)
    (h : mapExcept (fun p => sb p.html) pins = Except.error e) :
    addPins gp sb ta (some pins) none = ⟨pins, [], Except.error e⟩ := by
  simp [addPins, jsNotArray, jsTruthyStr, h]

theorem addPins_none_ok (gp : String → Except String (List Pin))
    (sb : String → Except String Nat) (ta : TagAddRequest → Except String Unit)
    (pins : List Pin) (attaches : List Nat)
    (h : mapExcept (fun p => sb p.html) pins = Except.ok attaches) :
    addPins gp sb ta (some pins) none =
      ⟨pins, dedupGo (pins.zip attaches) [],
       (mapExcept ta (dedupGo (pins.zip attaches) [])).map (fun _ => ())⟩ := by
  simp [addPins, jsNotArray, jsTruthyStr, h]

/-! ### Dedup (C2) -/

/-- C2: when the list processed by `addPins` holds two or more pins sharing
an id (and the external calls succeed, so failures do not interfere),
exactly one `Tag.add` request is issued for that id, it is built from the
first pin with that id in batching order, and the whole call still resolves
— the duplicates are dropped without any error. -/
theorem c2_addPins_dedup (gp : String → Except String (List Pin))
    (g : String → Nat) (pins : List Pin) (i : String)
    (h2 : 2 ≤ pins.countP (fun p => p.id == i)) :
    (addPins gp (fun h => Except.ok (g h)) (fun _ => Except.ok ())
        (some pins) none).issued.countP (fun r => r.id == i) = 1 ∧
    (addPins gp (fun h => Except.ok (g h)) (fun _ => Except.ok ())
        (some pins) none).issued.find? (fun r => r.id == i) =
      (pins.find? (fun p => p.id == i)).map (fun p => mkTagRequest p (g p.html)) ∧
    (addPins gp (fun h => Except.ok (g h)) (fun _ => Except.ok ())
        (some pins) none).outcome = Except.ok () := by
  have hmap : mapExcept (fun p => Except.ok (g p.html)) pins =
      Except.ok (pins.map (fun p => g p.html)) := mapExcept_pure _ _
  rw [addPins_none_ok gp (fun h => Except.ok (g h)) (fun _ => Except.ok ())
    pins (pins.map (fun p => g p.html)) hmap]
  rw [zip_map_self (fun p => (g p.html)) pins]
  refine ⟨?_, ?_, ?_⟩
  · rw [dedupGo_countP_of_not_mem _ [] i (List.not_mem_nil i)]
    rw [List.countP_map]
    exact le_trans (by norm_num) h2
  · rw [dedupGo_find _ [] i (List.not_mem_nil i), List.find?_map]
    rw [Option.map_map]
    rfl
  · rw [mapExcept_pure (fun _ => ()) _]
    rfl

/-- Two pins sharing the id p1 with different content. -/
def pinA : Pin :=
  { id := "p1", html := "<b>a</b>", position := ⟨1, 2, 3⟩, offset := ⟨0, 1, 0⟩,
    opacity := 1, enableLine := true, color := some "#f00", icon := none }

/-- The second pin with id p1. -/
def pinB : Pin :=
  { id := "p1", html := "<b>b</b>", position := ⟨4, 5, 6⟩, offset := ⟨0, 2, 0⟩,
    opacity := 1/2, enableLine := false, color := none, icon := some "star" }

/-- C2 witness: two pins sharing id p1 yield exactly one request for p1,
built from the first. -/
theorem c2_witness :
    2 ≤ List.countP (fun p => p.id == "p1") [pinA, pinB] ∧
    ((addPins (fun _ => Except.ok []) (fun h => Except.ok (h.length))
        (fun _ => Except.ok ()) (some [pinA, pinB]) none).issued.countP
        (fun r => r.id == "p1") = 1 ∧
     (addPins (fun _ => Except.ok []) (fun h => Except.ok (h.length))
        (fun _ => Except.ok ()) (some [pinA, pinB]) none).issued.find?
        (fun r => r.id == "p1") =
       (List.find? (fun p => p.id == "p1") [pinA, pinB]).map
         (fun p => mkTagRequest p p.html.length) ∧
     (addPins (fun _ => Except.ok []) (fun h => Except.ok (h.length))
        (fun _ => Except.ok ()) (some [pinA, pinB]) none).outcome =
       Except.ok ()) :=
  ⟨by decide, c2_addPins_dedup (fun _ => Except.ok []) (fun h => h.length)
    [pinA, pinB] "p1" (by decide)⟩

/-! ### Validation (C3) -/

/-- C3: calling `addPins` with the pin list omitted and no model does NOT
fail — it resolves successfully, issuing nothing.  The omitted `pins`
parameter receives its TS default `[]`, an array, and `![]` is `false` in
JS, so the `!pins && !model` input-validation guard can never fire; the
fetch is skipped (`model?.length` is falsy) and the empty batch resolves.
This contradicts the claimed (and clearly intended, per the guard's own
error message) configuration-error behavior. -/
theorem c3_addPins_no_validation (gp : String → Except String (List Pin))
    (sb : String → Except String Nat)
    (ta : TagAddRequest → Except String Unit) :
    addPins gp sb ta none none =
      { callerPins := [], issued := [], outcome := Except.ok () } := rfl

/-! ### Whole-batch failure (C7) -/

/-- C7: if any attachment-rendering call fails, or all attachments succeed
but some issued registration fails, the entire `addPins` call settles as a
single rejected outcome — even though (in the registration case) every
deduplicated registration request of the batch has already been issued. -/
theorem c7_addPins_batch_fail (gp : String → Except String (List Pin))
    (sb : String → Except String Nat)
    (ta : TagAddRequest → Except String Unit) (pins : List Pin)
    (h : (∃ p ∈ pins, (sb p.html).isOk = false) ∨
         ((∀ p ∈ pins, (sb p.html).isOk = true) ∧
          ∃ r ∈ (addPins gp sb ta (some pins) none).issued,
            (ta r).isOk = false)) :
    ∃ e, (addPins gp sb ta (some pins) none).outcome = Except.error e := by
  rcases h with hfail | ⟨hok, hreg⟩
  · obtain ⟨e, he⟩ := mapExcept_error_of_mem (fun p => sb p.html) pins hfail
    exact ⟨e, by rw [addPins_none_err gp sb ta pins e he]⟩
  · obtain ⟨attaches, ha⟩ := mapExcept_ok_of_forall (fun p => sb p.html) pins hok
    rw [addPins_none_ok gp sb ta pins attaches ha] at hreg ⊢
    obtain ⟨e, he⟩ := mapExcept_error_of_mem ta _ hreg
    exact ⟨e, by simp [he, Except.map]⟩

/-- A pin with id a. -/
def pinC : Pin :=
  { id := "a", html := "<i>a</i>", position := ⟨0, 0, 0⟩, offset := ⟨0, 0, 0⟩,
    opacity := 1, enableLine := true, color := none, icon := none }

/-- A pin with id b, whose registration the C7 witness platform rejects. -/
def pinD : Pin :=
  { id := "b", html := "<i>b</i>", position := ⟨0, 0, 1⟩, offset := ⟨0, 0, 0⟩,
    opacity := 1, enableLine := false, color := some "", icon := some "" }

/-- A registration oracle that rejects exactly the request for id b. -/
def taFailB : TagAddRequest → Except String Unit :=
  fun r => if r.id == "b" then Except.error "tag add failed" else Except.ok ()

/-- C7 witness: both attachments succeed, the registration of pin b fails,
and the whole call is rejected although both registrations were issued. -/
theorem c7_witness :
    ((∃ p ∈ [pinC, pinD], ((fun _ => Except.ok 1 :
        String → Except String Nat) p.html).isOk = false) ∨
     ((∀ p ∈ [pinC, pinD], ((fun _ => Except.ok 1 :
        String → Except String Nat) p.html).isOk = true) ∧
      ∃ r ∈ (addPins (fun _ => Except.ok []) (fun _ => Except.ok 1) taFailB
          (some [pinC, pinD]) none).issued, (taFailB r).isOk = false)) ∧
    ∃ e, (addPins (fun _ => Except.ok []) (fun _ => Except.ok 1) taFailB
        (some [pinC, pinD]) none).outcome = Except.error e :=
  ⟨by decide, c7_addPins_batch_fail (fun _ => Except.ok [])
    (fun _ => Except.ok 1) taFailB [pinC, pinD] (by decide)⟩

/-! ### In-place push onto the caller's array (C10) -/

theorem addPins_callerPins_fetch (gp : String → Except String (List Pin))
    (sb : String → Except String Nat) (ta : TagAddRequest → Except String Unit)
    (pins fetched : List Pin) (m : String) (hm : ¬(m = ""))
    (hf : gp m = Except.ok fetched) :
    (addPins gp sb ta (some pins) (some m)).callerPins = pins ++ fetched := by
  have hb : (m == "") = false := beq_eq_false_iff_ne.mpr hm
  cases hmap : mapExcept (fun p => sb p.html) (pins ++ fetched) with
  | error e => simp [addPins, jsNotArray, jsTruthyStr, hb, hf, hmap]
  | ok attaches => simp [addPins, jsNotArray, jsTruthyStr, hb, hf, hmap]

/-- C10: when `addPins` runs with a caller-supplied pins array (held in a
heap cell) and a non-empty model, the pins fetched for that model are
appended in place onto the caller's own array: after the call the caller's
cell holds the original pins followed by the fetched ones, and no other
cell is touched. -/
theorem c10_addPins_push_in_place (gp : String → Except String (List Pin))
    (sb : String → Except String Nat) (ta : TagAddRequest → Except String Unit)
    (heap : Nat → List Pin) (r : Nat) (m : String) (fetched : List Pin)
    (hm : ¬(m = "")) (hf : gp m = Except.ok fetched) :
    (addPinsRef gp sb ta heap r (some m)).1 r = heap r ++ fetched ∧
    (∀ x, ¬(x = r) → (addPinsRef gp sb ta heap r (some m)).1 x = heap x) := by
  constructor
  · show (if r = r then
        (addPins gp sb ta (some (heap r)) (some m)).callerPins else heap r) =
      heap r ++ fetched
    rw [if_pos rfl, addPins_callerPins_fetch gp sb ta (heap r) fetched m hm hf]
  · intro x hx
    show (if x = r then
        (addPins gp sb ta (some (heap r)) (some m)).callerPins else heap x) =
      heap x
    rw [if_neg hx]

/-- A content store holding one pin for every model. -/
def gpOne : String → Except String (List Pin) := fun _ => Except.ok [pinD]

/-- A one-cell heap whose cell 0 is the caller's pins array. -/
def heapOne : Nat → List Pin := fun _ => [pinC]

/-- C10 witness: the caller's array `[pinC]` at cell 0 becomes
`[pinC, pinD]` in place after fetching model m1. -/
theorem c10_witness :
    ¬(("m1" : String) = "") ∧ gpOne "m1" = Except.ok [pinD] ∧
    ((addPinsRef gpOne (fun _ => Except.ok 1) (fun _ => Except.ok ())
        heapOne 0 (some "m1")).1 0 = heapOne 0 ++ [pinD] ∧
     (∀ x, ¬(x = 0) → (addPinsRef gpOne (fun _ => Except.ok 1)
        (fun _ => Except.ok ()) heapOne 0 (some "m1")).1 x = heapOne x)) :=
  ⟨by decide, rfl, c10_addPins_push_in_place gpOne (fun _ => Except.ok 1)
    (fun _ => Except.ok ()) heapOne 0 "m1" [pinD] (by decide) rfl⟩

/-! ### getPosition (C8) -/

/-- C8: `getPosition` always settles (it never throws synchronously — the
executor only ever calls reject or resolve): with either cache unset it is
rejected with the descriptive message, and with both caches set it resolves
with the cached position-plus-timestamp value. -/
theorem c8_getPosition (ic : Option IntersectionTimed) (pc : Option Unit) :
    (getPosition ic pc = PromiseOutcome.rejected "Can't get current position." ∨
     ∃ v, getPosition ic pc = PromiseOutcome.resolved v) ∧
    ((ic = none ∨ pc = none) →
      getPosition ic pc = PromiseOutcome.rejected "Can't get current position.") ∧
    (∀ v, ic = some v → pc = some () →
      getPosition ic pc = PromiseOutcome.resolved (some v)) := by
  refine ⟨?_, ?_, ?_⟩
  · cases ic with
    | none => exact Or.inl (by simp [getPosition, settleFirst])
    | some v =>
      cases pc with
      | none => exact Or.inl (by simp [getPosition, settleFirst])
      | some u => exact Or.inr ⟨some v, by simp [getPosition, settleFirst]⟩
  · rintro (rfl | rfl)
    · simp [getPosition, settleFirst]
    · simp [getPosition, settleFirst]
  · rintro v rfl rfl
    simp [getPosition, settleFirst]

/-- C8 witness: the `setupSdk` closure state (both caches null, as the code
never assigns them) yields the rejected outcome with the message. -/
theorem c8_witness :
    ((none : Option IntersectionTimed) = none ∨ (none : Option Unit) = none) ∧
    getPosition none none =
      PromiseOutcome.rejected "Can't get current position." :=
  ⟨Or.inl rfl, (c8_getPosition none none).2.1 (Or.inl rfl)⟩

end Mapport
